import Mathlib

set_option maxRecDepth 10000

/-!
Verification development for the resource-booking bot in `src/main.py`.

The Python source is shallowly embedded: pure helpers become Lean
functions over `List Char` / `String`, Python `dict`s become ordered
association lists with Python's update-in-place/append-at-end semantics,
`datetime.date` / `datetime.time` values become a year-month-day
structure and minutes-since-midnight `Nat`s, and the handlers that touch
the Google-Sheets store become pure functions from an explicit
inventory/ledger state.
-/

/-! ### Python string primitives -/

/-- Whitespace characters removed by Python `str.strip` (the ASCII set:
space, tab, newline, carriage return, vertical tab, form feed). -/
def isPySpace (c : Char) : Bool :=
  c = ' ' || c = '\t' || c = '\n' || c = '\r' || c = Char.ofNat 11 || c = Char.ofNat 12

/-- Python `str.strip` on a character list: drop whitespace from both ends. -/
def pyStripL (l : List Char) : List Char :=
  ((l.dropWhile isPySpace).reverse.dropWhile isPySpace).reverse

/-- Python `str.strip` on a string. -/
def pyStrip (s : String) : String := String.mk (pyStripL s.data)

/-- Python `str.lower` on one character, covering the character ranges the
program actually compares: ASCII letters and the Cyrillic range used by the
sheet headers (А..Я and Ё); other characters are left unchanged. -/
def pyLowerChar (c : Char) : Char :=
  if 65 ≤ c.toNat ∧ c.toNat ≤ 90 then Char.ofNat (c.toNat + 32)
  else if 0x410 ≤ c.toNat ∧ c.toNat ≤ 0x42F then Char.ofNat (c.toNat + 32)
  else if c.toNat = 0x401 then Char.ofNat 0x451
  else c

/-- Python `str.lower` on a string (over the ranges of `pyLowerChar`). -/
def pyLower (s : String) : String := String.mk (s.data.map pyLowerChar)

/-- Python `str.split(sep)` for a one-character separator; `"".split(sep)`
gives `[""]` and adjacent separators give empty fields. -/
def splitChar (c : Char) : List Char → List (List Char)
  | [] => [[]]
  | x :: r =>
    if x = c then [] :: splitChar c r
    else
      match splitChar c r with
      | [] => [[x]]
      | h :: t => (x :: h) :: t

/-- Python `s.split(sep, 1)` when `sep` occurs in `s`: the text before the
first occurrence of `c` paired with everything after it. -/
def splitOnceChar (c : Char) : List Char → List Char × List Char
  | [] => ([], [])
  | x :: r =>
    if x = c then ([], r)
    else
      let p := splitOnceChar c r
      (x :: p.1, p.2)

/-- Python `s.rsplit(sep, 1)` for a one-character separator: `some` of the
parts before and after the last occurrence when the separator occurs, and
`none` otherwise (Python then returns the one-element list `[s]`). -/
def rsplitOnceChar (c : Char) (l : List Char) : Option (List Char × List Char) :=
  if l.contains c then
    let p := splitOnceChar c l.reverse
    some (p.2.reverse, p.1.reverse)
  else none

/-- Python `str.isdigit` restricted to ASCII digits: non-empty and all digits. -/
def pyIsDigit (l : List Char) : Bool :=
  !l.isEmpty && l.all (fun c => c.isDigit)

/-- Continuation of a Python integer-literal digit run: digits with single
underscores allowed only between digits. -/
def udRest : List Char → Bool
  | [] => true
  | '_' :: c :: r => c.isDigit && udRest r
  | c :: r => c.isDigit && udRest r

/-- Digit run as accepted by Python `int()`: non-empty, starts with a digit,
underscores only single and strictly between digits. -/
def udigits : List Char → Bool
  | [] => false
  | c :: r => c.isDigit && udRest r

/-- Numeric value of a digit run, ignoring underscores. -/
def digitsVal (l : List Char) : Nat :=
  (l.filter (fun c => c != '_')).foldl (fun a c => a * 10 + (c.toNat - 48)) 0

/-- Python `int()` on an already-stripped character list: optional sign
followed by an underscore-grouped digit run; `none` when the text is not an
integer literal (the callers catch the `ValueError`). -/
def pyInt : List Char → Option Int
  | '+' :: r => if udigits r then some (digitsVal r) else none
  | '-' :: r => if udigits r then some (-(digitsVal r : Int)) else none
  | l => if udigits l then some (digitsVal l) else none

/-! ### Python dict as an ordered association list -/

/-- Python `dict.get`: the value of the first (unique) binding of `k`. -/
def dictFind? {α : Type} : List (String × α) → String → Option α
  | [], _ => none
  | (k', v) :: r, k => if k' = k then some v else dictFind? r k

/-- Python `dict.get(k, d)` with a default. -/
def dictGet {α : Type} (m : List (String × α)) (k : String) (d : α) : α :=
  (dictFind? m k).getD d

/-- Python `dict[k] = v`: update the binding in place when the key is
present, otherwise append the new binding at the end. -/
def dictSet {α : Type} : List (String × α) → String → α → List (String × α)
  | [], k, v => [(k, v)]
  | (k', v') :: r, k, v => if k' = k then (k', v) :: r else (k', v') :: dictSet r k v

/-- Python `dict.pop(k, None)`: remove the binding of `k` when present. -/
def dictPop {α : Type} : List (String × α) → String → List (String × α)
  | [], _ => []
  | (k', v') :: r, k => if k' = k then r else (k', v') :: dictPop r k

/-! ### parse_resources (src/main.py lines 137-162) -/

/-- Separator normalization of `parse_resources`: `;`, `,` and newline are
all replaced by `;` (sequential single-character `str.replace` calls). -/
def normalizeSeps (text : String) : List Char :=
  text.data.map (fun ch => if ch = ',' ∨ ch = '\n' then ';' else ch)

/-- Name and count text for one (already stripped, non-blank) chunk,
mirroring the per-chunk branch of `parse_resources`: a `:`-delimited
suffix wins; else a final space-separated all-digit token is the count;
else the count text is `"1"`. -/
def chunkNameCnt (chunk : List Char) : List Char × List Char :=
  if chunk.contains ':' then
    splitOnceChar ':' chunk
  else
    match rsplitOnceChar ' ' chunk with
    | some (n, t) => if pyIsDigit t then (n, t) else (chunk, ['1'])
    | none => (chunk, ['1'])

/-- One iteration of the chunk loop of `parse_resources`: blank chunks are
skipped; otherwise the stripped name is bound to the parsed count, a count
that `int()` rejects defaulting to 1. -/
def parseChunkInto (res : List (String × Int)) (chunk0 : List Char) : List (String × Int) :=
  let chunk := pyStripL chunk0
  if chunk = [] then res
  else
    let nc := chunkNameCnt chunk
    let cnt := (pyInt (pyStripL nc.2)).getD 1
    dictSet res (String.mk (pyStripL nc.1)) cnt

/-- Embedding of `parse_resources`: normalize separators, split on `;`, and
fold every chunk into the result dict. -/
def parse_resources (text : String) : List (String × Int) :=
  (splitChar ';' (normalizeSeps text)).foldl parseChunkInto []


/-! ### Dates and times (datetime.strptime with the formats the bot uses) -/

/-- A parsed `datetime.date`. -/
structure PyDate where
  year : Nat
  month : Nat
  day : Nat
deriving DecidableEq, Repr

/-- Leap-year rule used by `datetime`. -/
def isLeap (y : Nat) : Bool :=
  y % 4 == 0 && (y % 100 != 0 || y % 400 == 0)

/-- Days in a month, as validated by the `datetime.date` constructor. -/
def daysInMonth (y m : Nat) : Nat :=
  if m = 2 then (if isLeap y then 29 else 28)
  else if m = 4 ∨ m = 6 ∨ m = 9 ∨ m = 11 then 30
  else 31

/-- One numeric `strptime` field of at most two digits, bounded by `maxVal`
(the `%m`/`%d`/`%H`/`%M` regexes accept one or two digits in range). -/
def twoDigitField (l : List Char) (maxVal : Nat) : Option Nat :=
  if l ≠ [] ∧ l.length ≤ 2 ∧ l.all (fun c => c.isDigit) = true ∧ digitsVal l ≤ maxVal then
    some (digitsVal l)
  else none

/-- `datetime.strptime(s, "%H:%M").time()` as minutes since midnight:
hour and minute fields of one or two digits, hour at most 23, minute at
most 59, nothing else in the string. -/
def parseTime (s : String) : Option Nat :=
  match splitChar ':' s.data with
  | [h, m] =>
    match twoDigitField h 23, twoDigitField m 59 with
    | some hv, some mv => some (hv * 60 + mv)
    | _, _ => none
  | _ => none

/-- `datetime.strptime(s, "%Y-%m-%d").date()`: a four-digit year of at
least 1, a one-or-two-digit month in 1..12, and a one-or-two-digit day
valid for the month. -/
def parseDate (s : String) : Option PyDate :=
  match splitChar '-' s.data with
  | [y, m, d] =>
    if y.length = 4 ∧ y.all (fun c => c.isDigit) = true ∧ 1 ≤ digitsVal y then
      match twoDigitField m 12, twoDigitField d 31 with
      | some mv, some dv =>
        if 1 ≤ mv ∧ 1 ≤ dv ∧ dv ≤ daysInMonth (digitsVal y) mv then
          some ⟨digitsVal y, mv, dv⟩
        else none
      | _, _ => none
    else none
  | _ => none


/-! ### times_overlap and check_availability (src/main.py lines 164-223) -/

/-- Embedding of `times_overlap`; times are minutes since midnight, and
comparison of `datetime.time` values coincides with comparison of their
minute counts. -/
def times_overlap (s1 e1 s2 e2 : Nat) : Bool :=
  decide (s1 < e2) && decide (s2 < e1)

/-- A row of the bookings sheet as returned by `get_all_records`: an
ordered header-to-cell-text dict. -/
abbrev SheetRow : Type := List (String × String)

/-- Character-list prefix test. -/
def charsStartWith : List Char → List Char → Bool
  | [], _ => true
  | _ :: _, [] => false
  | a :: as, b :: bs => a = b && charsStartWith as bs

/-- Python substring test `needle in hay` on character lists. -/
def containsChars (needle : List Char) : List Char → Bool
  | [] => needle.isEmpty
  | b :: bs => charsStartWith needle (b :: bs) || containsChars needle bs

/-- Embedding of the inner `find_key` of `check_availability`: the first
row key whose lowercased form contains one of the substrings. -/
def find_key (keys : List String) (substrs : List String) : Option String :=
  keys.find? (fun k => substrs.any (fun s => containsChars s.data (pyLower k).data))

/-- Cell text of a row under a key (the keys passed in always come from the
row itself, so the default is never observed). -/
def rowVal (row : SheetRow) (k : String) : String :=
  dictGet row k ""

/-- Truthiness test Python applies to the results of `find_key`
(`if not date_key or ...`): present and non-empty. -/
def keyTruthy (o : Option String) : Bool :=
  match o with
  | some k => k ≠ ""
  | none => false

/-- The per-row filter of `check_availability`: `some` of the row's parsed
resource map when the row has resolvable date/start/end/resources columns,
a parseable date equal to the probe date, parseable times, and a window
overlapping the probe window; `none` when the row is skipped. -/
def rowContribution? (probe : PyDate) (s1 e1 : Nat) (row : SheetRow) : Option (List (String × Int)) :=
  let keys := row.map (fun p => p.1)
  let dateK := find_key keys ["дата", "date"]
  let startK := find_key keys ["время начала", "start", "начало"]
  let endK := find_key keys ["время окончания", "end", "конец"]
  let resK := find_key keys ["ресурс", "resource", "необходим"]
  if keyTruthy dateK ∧ keyTruthy startK ∧ keyTruthy endK ∧ keyTruthy resK then
    match parseDate (pyStrip (rowVal row (dateK.getD ""))) with
    | none => none
    | some d =>
      if d = probe then
        match parseTime (pyStrip (rowVal row (startK.getD ""))),
              parseTime (pyStrip (rowVal row (endK.getD ""))) with
        | some rs, some re2 =>
          if times_overlap s1 e1 rs re2 then
            some (parse_resources (rowVal row (resK.getD "")))
          else none
        | _, _ => none
      else none
  else none

/-- Accumulation of one overlapping row's parsed resources into the
`conflicts_counts` dict (`conflicts_counts[name] = conflicts_counts.get(name, 0) + cnt`). -/
def accRes (acc : List (String × Int)) (res : List (String × Int)) : List (String × Int) :=
  res.foldl (fun a p => dictSet a p.1 (dictGet a p.1 0 + p.2)) acc

/-- The `conflicts_counts` dict built by the bookings loop of
`check_availability`. -/
def buildConflicts (probe : PyDate) (s1 e1 : Nat) (rows : List SheetRow) : List (String × Int) :=
  rows.foldl (fun acc row =>
    match rowContribution? probe s1 e1 row with
    | none => acc
    | some res => accRes acc res) []

/-- Inventory resolution of `check_availability`: the quantity of the first
inventory entry whose trimmed lowercased name equals the trimmed lowercased
requested name, or 0 when none matches. -/
def resolveInv (inventory : List (String × Int)) (name : String) : Int :=
  match inventory.find? (fun p => pyLower (pyStrip p.1) == pyLower (pyStrip name)) with
  | some p => p.2
  | none => 0

/-- Result of `check_availability`, carrying the data of the returned
reason strings structurally. -/
inductive CheckResult where
  | ok
  | notFound (name : String)
  | insufficient (name : String) (d : PyDate) (s e : Nat) (free requested : Int)
deriving DecidableEq, Repr

/-- The per-request loop of `check_availability` over the requested
entries in caller-supplied order. -/
def checkLoop (inventory conflicts : List (String × Int)) (d : PyDate) (s e : Nat) :
    List (String × Int) → CheckResult
  | [] => .ok
  | (name, cnt) :: rest =>
    let invCnt := resolveInv inventory name
    if invCnt = 0 then .notFound name
    else
      let used := dictGet conflicts name 0
      let free := invCnt - used
      if free < cnt then .insufficient name d s e free cnt
      else checkLoop inventory conflicts d s e rest

/-- Embedding of `check_availability` over an explicit inventory and
ledger (the two external reads). -/
def check_availability (inventory : List (String × Int)) (rows : List SheetRow)
    (d : PyDate) (s e : Nat) (requested : List (String × Int)) : CheckResult :=
  checkLoop inventory (buildConflicts d s e rows) d s e requested

/-! ### Decimal rendering (Python str() on a non-negative int, f-string keys) -/

/-- Decimal digit character for `k < 10`. -/
def digitChar (k : Nat) : Char := Char.ofNat (48 + k)

/-- Fuelled digit expansion; the fuel always suffices at the call below. -/
def natDecimalGo : Nat → Nat → List Char
  | 0, _ => []
  | fuel + 1, n =>
    if n < 10 then [digitChar n]
    else natDecimalGo fuel (n / 10) ++ [digitChar (n % 10)]

/-- Decimal digits of a natural number, most significant first, as
produced by Python `str()` inside the f-strings of the bot. -/
def natDecimal (n : Nat) : List Char := natDecimalGo (n + 1) n

/-- Decimal string of a natural number. -/
def natStr (n : Nat) : String := String.mk (natDecimal n)

/-- Value of a most-significant-first digit list. -/
def decVal (l : List Char) : Nat :=
  l.foldl (fun a c => a * 10 + (c.toNat - 48)) 0

/-- Two-digit zero-padded field of `strftime("%H:%M")`. -/
def pad2 (n : Nat) : String := if n < 10 then "0" ++ natStr n else natStr n

/-- Four-digit zero-padded year of `date.isoformat()`. -/
def pad4 (n : Nat) : String :=
  if n < 10 then "000" ++ natStr n
  else if n < 100 then "00" ++ natStr n
  else if n < 1000 then "0" ++ natStr n
  else natStr n

/-- `time.strftime("%H:%M")` over minutes since midnight. -/
def fmtHM (t : Nat) : String := pad2 (t / 60) ++ ":" ++ pad2 (t % 60)

/-- `date.isoformat()`. -/
def isoDate (d : PyDate) : String :=
  pad4 d.year ++ "-" ++ pad2 d.month ++ "-" ++ pad2 d.day

/-- Python `str()` of an int. -/
def intStr (i : Int) : String :=
  if i < 0 then "-" ++ natStr i.natAbs else natStr i.natAbs

/-- Rendering of the reason strings returned by `check_availability`,
mirroring its literal return values. -/
def CheckResult.message : CheckResult → String
  | .ok => "Доступно"
  | .notFound name =>
    "Оборудование \x27" ++ name ++ "\x27 не найдено в инвентаре или его количество равно 0."
  | .insufficient name d s e free req =>
    "На " ++ isoDate d ++ " с " ++ fmtHM s ++ " до " ++ fmtHM e ++
      " свободно только " ++ intStr free ++ " шт \x27" ++ name ++
      "\x27, а запрошено " ++ intStr req ++ "."

/-! ### build_inventory_keyboard (src/main.py lines 226-271) -/

/-- Catalog short key `f"i{idx}"`. -/
def iKey (idx : Nat) : String := String.mk ('i' :: natDecimal idx)

/-- Cart short key `f"c{idx}"`. -/
def cKey (idx : Nat) : String := String.mk ('c' :: natDecimal idx)

/-- `total_pages = max(1, math.ceil(total / page_size))` (exact for the
integer operands the bot uses). -/
def totalPagesCalc (total pageSize : Nat) : Nat :=
  max 1 ((total + pageSize - 1) / pageSize)

/-- `page = max(0, min(page, total_pages - 1))`. -/
def clampPage (page : Int) (tp : Nat) : Nat :=
  (max 0 (min page ((tp : Int) - 1))).toNat

/-- Result of `build_inventory_keyboard`: the per-item buttons of the
visible page slice (text and callback data; the static cart/finish/manual
and navigation buttons carry no item data and are not modelled), the
catalog-wide `callback_map`, and `total_pages`. -/
structure InvKeyboard where
  buttons : List (String × String)
  callback_map : List (String × String)
  pages : Nat
deriving DecidableEq, Repr

/-- Embedding of `build_inventory_keyboard`: the callback map is built
over all items (`i{idx}` keyed by catalog index), the visible slice is
`range(start, min(start + page_size, total))` of the clamped page. -/
def build_inventory_keyboard (inventory : List (String × Int)) (page : Int)
    (pageSize : Nat := 10) : InvKeyboard :=
  let items := inventory
  let total := items.length
  let tp := totalPagesCalc total pageSize
  let p := clampPage page tp
  let cmap := items.enum.map (fun e => (iKey e.1, e.2.1))
  let visible := (items.enum.drop (p * pageSize)).take pageSize
  { buttons := visible.map (fun e =>
      (e.2.1 ++ " (" ++ intStr e.2.2 ++ ")", "select:" ++ iKey e.1)),
    callback_map := cmap,
    pages := tp }

/-! ### Selection session handlers (src/main.py lines 370-657) -/

/-- Per-chat FSM data the selection handlers read and write. -/
structure SessState where
  callback_map : List (String × String)
  cart : List (String × Int)
  cart_map : List (String × String)
  inv_page : Int
  temp_select : Option (String × String × Int)
deriving DecidableEq, Repr

/-- Outcome of `select_equipment` visible to the user. -/
inductive SelectOutcome where
  | stale
  | chosen (name : String) (maxCnt : Int)
deriving DecidableEq, Repr

/-- The stale-button branch shared by the selection handlers: regenerate
the catalog keyboard at page 0 and store the fresh map. -/
def staleRegen (inv : List (String × Int)) (st : SessState) : SelectOutcome × SessState :=
  (.stale, { st with callback_map := (build_inventory_keyboard inv 0).callback_map,
                     inv_page := 0 })

/-- Embedding of `select_equipment`: resolve the pressed key against the
stored `callback_map`; a missing (or falsy) name triggers the stale-button
path, otherwise a quantity picker is opened with count 1. -/
def select_equipment (inv : List (String × Int)) (st : SessState) (key : String) :
    SelectOutcome × SessState :=
  match dictFind? st.callback_map key with
  | some name =>
    if name = "" then staleRegen inv st
    else (.chosen name (dictGet inv name 0),
          { st with temp_select := some (key, name, 1) })
  | none => staleRegen inv st

/-- Cart key map regenerated by a cart render: `c{idx}` per cart entry in
iteration order. -/
def buildCartMap (cart : List (String × Int)) : List (String × String) :=
  cart.enum.map (fun e => (cKey e.1, e.2.1))

/-- The cart re-render after a `dec`/`remove` mutation: when the cart is
empty only a message is sent (the stored `cart_map` is left as is),
otherwise the `cart_map` is regenerated. -/
def rerenderCart (st : SessState) : SessState :=
  if st.cart = [] then st else { st with cart_map := buildCartMap st.cart }

/-- Actions handled by `cart_actions`. -/
inductive CartAction where
  | clear
  | close
  | dec (key : String)
  | remove (key : String)
deriving DecidableEq, Repr

/-- Outcome of `cart_actions` visible to the user. -/
inductive CartOutcome where
  | cleared
  | closed
  | staleButton
  | removed (name : String)
  | decremented (name : String) (remaining : Int)
  | removedMissing
deriving DecidableEq, Repr

/-- Embedding of `cart_actions`: `clear` empties the cart, `close`
regenerates the catalog keyboard at the stored page, and `dec`/`remove`
resolve their key against the stored `cart_map` — a miss (or falsy name)
answers with the stale-button message and mutates nothing, a hit mutates
the cart and re-renders it. -/
def cart_actions (inv : List (String × Int)) (st : SessState) (a : CartAction) :
    CartOutcome × SessState :=
  match a with
  | .clear => (.cleared, { st with cart := [] })
  | .close =>
    (.closed, { st with callback_map := (build_inventory_keyboard inv st.inv_page).callback_map })
  | .dec key =>
    match dictFind? st.cart_map key with
    | none => (.staleButton, st)
    | some name =>
      if name = "" then (.staleButton, st)
      else
        let current := dictGet st.cart name 0
        if current ≤ 1 then
          (.removed name, rerenderCart { st with cart := dictPop st.cart name })
        else
          (.decremented name (current - 1),
           rerenderCart { st with cart := dictSet st.cart name (current - 1) })
  | .remove key =>
    match dictFind? st.cart_map key with
    | none => (.staleButton, st)
    | some name =>
      if name = "" then (.staleButton, st)
      else
        match dictFind? st.cart name with
        | some _ => (.removed name, rerenderCart { st with cart := dictPop st.cart name })
        | none => (.removedMissing, rerenderCart st)

/-! ### Confirmation handlers (src/main.py lines 736-803) -/

/-- The frozen candidate request held in FSM data when the confirm state
is reached (dates and times are stored as the strings produced by
`isoformat`/`strftime` and re-parsed by the handlers; the round trip is
the identity, so they are carried here in parsed form). -/
structure BookingData where
  booking_date : PyDate
  start_time : Nat
  end_time : Nat
  employee_name : String
  resources : String
  requested_parsed : List (String × Int)
  manager_name : String
deriving DecidableEq, Repr

/-- Header row of the bookings sheet (`BOOKING_COLUMNS`). -/
def BOOKING_COLUMNS : List String :=
  ["Дата проведения работ",
   "Имя и фамилия сотрудника(-ков)",
   "Необходимые ресурсы",
   "Время начала работ",
   "Время окончания работ",
   "Имя руководителя проекта"]

/-- The row appended by the confirm handlers, as it is later read back by
`get_all_records`: header keys zipped with
`[date, employee, resources, start, end, manager]`. -/
def serializeRow (b : BookingData) : SheetRow :=
  List.zip BOOKING_COLUMNS
    [isoDate b.booking_date, b.employee_name, b.resources,
     fmtHM b.start_time, fmtHM b.end_time, b.manager_name]

/-- Confirm-stage signals: the inline buttons `confirm:yes` / `confirm:cancel`. -/
inductive ConfirmSignal where
  | yes
  | cancel
deriving DecidableEq, Repr

/-- Outcome of the confirm stage. -/
inductive ConfirmOutcome where
  | committed
  | cancelledByUser
  | rejected (r : CheckResult)
  | reprompt
deriving DecidableEq, Repr

/-- Embedding of `confirm_handler`: cancel clears the state; yes re-runs
`check_availability` on the frozen request and appends the serialized row
(`insert_row(..., index=2)`, i.e. as the first data row) exactly when the
re-check passes. Returns the outcome and the resulting ledger. -/
def confirm_handler (inventory : List (String × Int)) (ledger : List SheetRow)
    (b : BookingData) (sig : ConfirmSignal) : ConfirmOutcome × List SheetRow :=
  match sig with
  | .cancel => (.cancelledByUser, ledger)
  | .yes =>
    let r := check_availability inventory ledger b.booking_date b.start_time b.end_time
      b.requested_parsed
    if r = .ok then (.committed, serializeRow b :: ledger)
    else (.rejected r, ledger)

/-- Embedding of `process_confirm_text`: the stripped lowercased text is
matched against the negative tokens (cancel) and affirmative tokens
(the same re-check-then-append path as the button); anything else
re-prompts without touching the ledger. -/
def process_confirm_text (inventory : List (String × Int)) (ledger : List SheetRow)
    (b : BookingData) (text : String) : ConfirmOutcome × List SheetRow :=
  let t := pyLower (pyStrip text)
  if t = "отмена" ∨ t = "cancel" ∨ t = "нет" ∨ t = "no" then
    (.cancelledByUser, ledger)
  else if t = "да" ∨ t = "ok" ∨ t = "yes" then
    let r := check_availability inventory ledger b.booking_date b.start_time b.end_time
      b.requested_parsed
    if r = .ok then (.committed, serializeRow b :: ledger)
    else (.rejected r, ledger)
  else (.reprompt, ledger)

/-! ### Helper lemmas about the dict embedding -/

theorem dictFind?_dictSet_self {α : Type} (m : List (String × α)) (k : String) (v : α) :
    dictFind? (dictSet m k v) k = some v := by
  induction m with
  | nil => simp [dictSet, dictFind?]
  | cons p r ih =>
    by_cases h : p.1 = k
    · simp [dictSet, dictFind?, h]
    · simp [dictSet, dictFind?, h, ih]

theorem dictFind?_dictSet_ne {α : Type} (m : List (String × α)) (k k' : String) (v : α)
    (h : k' ≠ k) : dictFind? (dictSet m k v) k' = dictFind? m k' := by
  have hk : ¬(k = k') := fun hh => h hh.symm
  induction m with
  | nil => simp [dictSet, dictFind?, hk]
  | cons p r ih =>
    obtain ⟨k1, v1⟩ := p
    by_cases h1 : k1 = k
    · subst h1
      simp only [dictSet, if_pos rfl, dictFind?]
      rw [if_neg hk, if_neg hk]
    · simp only [dictSet, if_neg h1, dictFind?]
      by_cases h2 : k1 = k'
      · rw [if_pos h2, if_pos h2]
      · rw [if_neg h2, if_neg h2, ih]

theorem dictSet_ne_nil {α : Type} (m : List (String × α)) (k : String) (v : α) :
    dictSet m k v ≠ [] := by
  cases m with
  | nil => simp [dictSet]
  | cons p r =>
    obtain ⟨k1, v1⟩ := p
    by_cases h : k1 = k <;> simp [dictSet, h]

/-- Sum of the values bound to `name` across all pairs of a list. -/
def sumKeyVals (name : String) (l : List (String × Int)) : Int :=
  (l.map (fun p => if p.1 = name then p.2 else 0)).sum

theorem sumKeyVals_cons (name : String) (p : String × Int) (l : List (String × Int)) :
    sumKeyVals name (p :: l) = (if p.1 = name then p.2 else 0) + sumKeyVals name l := by
  simp [sumKeyVals]

theorem sumKeyVals_eq_zero_of_find?_none (name : String) (l : List (String × Int))
    (h : dictFind? l name = none) : sumKeyVals name l = 0 := by
  induction l with
  | nil => rfl
  | cons p r ih =>
    obtain ⟨k1, v1⟩ := p
    rw [sumKeyVals_cons]
    by_cases hp : k1 = name
    · simp [dictFind?, hp] at h
    · simp only [dictFind?] at h
      rw [if_neg hp] at h
      simp only [if_neg hp]
      rw [ih h]
      simp

theorem dictFind?_eq_none_of_not_mem_keys {α : Type} (m : List (String × α)) (k : String)
    (h : k ∉ m.map (fun p => p.1)) : dictFind? m k = none := by
  induction m with
  | nil => rfl
  | cons p r ih =>
    obtain ⟨k1, v1⟩ := p
    simp only [List.map_cons, List.mem_cons] at h
    push_neg at h
    simp only [dictFind?]
    rw [if_neg (fun hh => h.1 hh.symm)]
    exact ih h.2

/-- Key distinctness invariant of every Python dict the program builds. -/
def KeysNodup {α : Type} (m : List (String × α)) : Prop :=
  (m.map (fun p => p.1)).Nodup

theorem keys_dictSet_sub {α : Type} (m : List (String × α)) (k x : String) (v : α)
    (h : x ∈ (dictSet m k v).map (fun p => p.1)) :
    x ∈ m.map (fun p => p.1) ∨ x = k := by
  induction m with
  | nil =>
    right
    simpa [dictSet] using h
  | cons p r ih =>
    obtain ⟨k1, v1⟩ := p
    by_cases h1 : k1 = k
    · simp only [dictSet, if_pos h1, List.map_cons, List.mem_cons] at h
      rcases h with h | h
      · left; simp [h]
      · left
        simp only [List.map_cons, List.mem_cons]
        exact Or.inr h
    · simp only [dictSet, if_neg h1, List.map_cons, List.mem_cons] at h
      rcases h with h | h
      · left; simp [h]
      · rcases ih h with h2 | h2
        · left
          simp only [List.map_cons, List.mem_cons]
          exact Or.inr h2
        · right; exact h2

theorem keysNodup_dictSet {α : Type} (m : List (String × α)) (k : String) (v : α)
    (h : KeysNodup m) : KeysNodup (dictSet m k v) := by
  induction m with
  | nil => simp [KeysNodup, dictSet]
  | cons p r ih =>
    obtain ⟨k1, v1⟩ := p
    simp only [KeysNodup, List.map_cons, List.nodup_cons] at h
    by_cases h1 : k1 = k
    · simp only [KeysNodup, dictSet, if_pos h1, List.map_cons, List.nodup_cons]
      exact h
    · have hr := ih h.2
      simp only [KeysNodup, dictSet, if_neg h1, List.map_cons, List.nodup_cons]
      refine ⟨?_, hr⟩
      intro hx
      rcases keys_dictSet_sub r k k1 v hx with h2 | h2
      · exact h.1 h2
      · exact h1 h2

theorem sumKeyVals_eq_dictGet_of_nodup (name : String) (m : List (String × Int))
    (h : KeysNodup m) : sumKeyVals name m = dictGet m name 0 := by
  induction m with
  | nil => rfl
  | cons p r ih =>
    obtain ⟨k1, v1⟩ := p
    simp only [KeysNodup, List.map_cons, List.nodup_cons] at h
    rw [sumKeyVals_cons]
    by_cases hp : k1 = name
    · subst hp
      have hnone : dictFind? r k1 = none :=
        dictFind?_eq_none_of_not_mem_keys r k1 h.1
      rw [sumKeyVals_eq_zero_of_find?_none _ _ hnone]
      simp [dictGet, dictFind?]
    · simp only [if_neg hp]
      rw [ih h.2]
      simp only [dictGet, dictFind?]
      rw [if_neg hp]
      simp

/-! ### Helper lemmas for the usage accumulation of check_availability -/

theorem keysNodup_foldl_parseChunkInto (chunks : List (List Char)) :
    ∀ acc : List (String × Int), KeysNodup acc →
      KeysNodup (chunks.foldl parseChunkInto acc) := by
  induction chunks with
  | nil => intro acc h; exact h
  | cons c r ih =>
    intro acc h
    rw [List.foldl_cons]
    apply ih
    by_cases hb : pyStripL c = []
    · simpa [parseChunkInto, hb] using h
    · simp only [parseChunkInto, if_neg hb]
      exact keysNodup_dictSet _ _ _ h

theorem parse_resources_keysNodup (text : String) : KeysNodup (parse_resources text) := by
  apply keysNodup_foldl_parseChunkInto
  simp [KeysNodup]

theorem rowContribution?_keysNodup (probe : PyDate) (s1 e1 : Nat) (row : SheetRow)
    (res : List (String × Int)) (h : rowContribution? probe s1 e1 row = some res) :
    KeysNodup res := by
  simp only [rowContribution?] at h
  split at h
  · split at h
    · exact absurd h (by simp)
    · split at h
      · split at h
        · split at h
          · rw [Option.some.injEq] at h
            rw [← h]
            exact parse_resources_keysNodup _
          · exact absurd h (by simp)
        · exact absurd h (by simp)
      · exact absurd h (by simp)
  · exact absurd h (by simp)

theorem dictGet_accRes (res : List (String × Int)) :
    ∀ (acc : List (String × Int)) (name : String),
      dictGet (accRes acc res) name 0 = dictGet acc name 0 + sumKeyVals name res := by
  induction res with
  | nil => intro acc name; simp [accRes, sumKeyVals]
  | cons p r ih =>
    intro acc name
    obtain ⟨k1, v1⟩ := p
    have hstep : accRes acc ((k1, v1) :: r) =
        accRes (dictSet acc k1 (dictGet acc k1 0 + v1)) r := by
      simp [accRes]
    rw [hstep, ih, sumKeyVals_cons]
    by_cases hk : k1 = name
    · subst hk
      simp only [dictGet, dictFind?_dictSet_self, Option.getD_some, if_true]
      ring
    · simp only [dictGet]
      rw [dictFind?_dictSet_ne _ _ _ _ (fun hh => hk hh.symm)]
      simp only [if_neg hk]
      ring

theorem dictGet_buildConflicts_aux (probe : PyDate) (s1 e1 : Nat) (name : String)
    (rows : List SheetRow) :
    ∀ acc : List (String × Int),
      dictGet (rows.foldl (fun acc row =>
        match rowContribution? probe s1 e1 row with
        | none => acc
        | some res => accRes acc res) acc) name 0 =
      dictGet acc name 0 +
        (rows.map (fun row =>
          match rowContribution? probe s1 e1 row with
          | none => 0
          | some res => sumKeyVals name res)).sum := by
  induction rows with
  | nil => intro acc; simp
  | cons row rest ih =>
    intro acc
    rw [List.foldl_cons, List.map_cons, List.sum_cons, ih]
    cases h : rowContribution? probe s1 e1 row with
    | none => simp
    | some res =>
      simp only [dictGet_accRes]
      ring

/-! ### Helper lemmas for the per-request loop of check_availability -/

/-- A requested entry passes both guards of the loop body: it resolves to
non-zero stock and the free count covers the requested count. -/
def passesReq (inventory conflicts : List (String × Int)) (p : String × Int) : Prop :=
  resolveInv inventory p.1 ≠ 0 ∧
    ¬(resolveInv inventory p.1 - dictGet conflicts p.1 0 < p.2)

instance (inventory conflicts : List (String × Int)) (p : String × Int) :
    Decidable (passesReq inventory conflicts p) := by
  unfold passesReq; infer_instance

theorem checkLoop_ok_iff (inventory conflicts : List (String × Int)) (d : PyDate)
    (s e : Nat) (l : List (String × Int)) :
    checkLoop inventory conflicts d s e l = .ok ↔
      ∀ p ∈ l, passesReq inventory conflicts p := by
  induction l with
  | nil => simp [checkLoop]
  | cons p r ih =>
    obtain ⟨name, cnt⟩ := p
    by_cases h1 : resolveInv inventory name = 0
    · simp only [checkLoop, if_pos h1]
      constructor
      · intro h; exact absurd h (by simp)
      · intro h
        exact absurd (h (name, cnt) (by simp)).1 (by simpa using h1)
    · by_cases h2 : resolveInv inventory name - dictGet conflicts name 0 < cnt
      · simp only [checkLoop, if_neg h1, if_pos h2]
        constructor
        · intro h; exact absurd h (by simp)
        · intro h
          exact absurd h2 (h (name, cnt) (by simp)).2
      · simp only [checkLoop, if_neg h1, if_neg h2]
        rw [ih]
        constructor
        · intro h q hq
          rcases List.mem_cons.mp hq with hq | hq
          · subst hq; exact ⟨h1, h2⟩
          · exact h q hq
        · intro h q hq
          exact h q (List.mem_cons_of_mem _ hq)

theorem checkLoop_first_fail (inventory conflicts : List (String × Int)) (d : PyDate)
    (s e : Nat) (name : String) (cnt : Int) (post : List (String × Int)) :
    ∀ pre : List (String × Int), (∀ p ∈ pre, passesReq inventory conflicts p) →
      checkLoop inventory conflicts d s e (pre ++ (name, cnt) :: post) =
        (if resolveInv inventory name = 0 then .notFound name
         else if resolveInv inventory name - dictGet conflicts name 0 < cnt then
           .insufficient name d s e (resolveInv inventory name - dictGet conflicts name 0) cnt
         else checkLoop inventory conflicts d s e post) := by
  intro pre
  induction pre with
  | nil => intro _; simp [checkLoop]
  | cons q r ih =>
    intro h
    obtain ⟨qn, qc⟩ := q
    have hq := h (qn, qc) (by simp)
    rw [List.cons_append]
    simp only [checkLoop, if_neg hq.1, if_neg hq.2]
    exact ih (fun p hp => h p (List.mem_cons_of_mem _ hp))

/-! ### Helper lemmas for decimal keys and the catalog-wide key map -/

theorem digitChar_toNat (k : Nat) (h : k < 10) : (digitChar k).toNat = 48 + k := by
  interval_cases k <;> rfl

theorem decVal_append (l : List Char) (c : Char) :
    decVal (l ++ [c]) = decVal l * 10 + (c.toNat - 48) := by
  simp [decVal, List.foldl_append]

theorem decVal_natDecimalGo (fuel : Nat) :
    ∀ n : Nat, n < fuel → decVal (natDecimalGo fuel n) = n := by
  induction fuel with
  | zero => intro n h; omega
  | succ f ih =>
    intro n h
    by_cases h10 : n < 10
    · simp [natDecimalGo, h10, decVal, digitChar_toNat n h10]
    · have hdiv : n / 10 < f := by
        have hlt : n / 10 < n := Nat.div_lt_self (by omega) (by omega)
        omega
      simp only [natDecimalGo, if_neg h10]
      rw [decVal_append, ih (n / 10) hdiv,
        digitChar_toNat (n % 10) (Nat.mod_lt n (by omega))]
      omega

theorem decVal_natDecimal (n : Nat) : decVal (natDecimal n) = n :=
  decVal_natDecimalGo (n + 1) n (by omega)

theorem natDecimal_inj {m n : Nat} (h : natDecimal m = natDecimal n) : m = n := by
  rw [← decVal_natDecimal m, ← decVal_natDecimal n, h]

theorem iKey_inj {m n : Nat} (h : iKey m = iKey n) : m = n := by
  have h2 : 'i' :: natDecimal m = 'i' :: natDecimal n := congrArg String.data h
  simp only [List.cons.injEq] at h2
  exact natDecimal_inj h2.2

theorem dictFind?_keyed_enumFrom (f : Nat → String) (hf : ∀ {a b : Nat}, f a = f b → a = b)
    (items : List (String × Int)) :
    ∀ (k i : Nat), i < items.length →
      dictFind? ((items.enumFrom k).map (fun e => (f e.1, e.2.1))) (f (k + i)) =
        (items.get? i).map Prod.fst := by
  induction items with
  | nil => intro k i h; simp at h
  | cons x rest ih =>
    intro k i h
    cases i with
    | zero =>
      rw [Nat.add_zero]
      simp [List.enumFrom, dictFind?]
    | succ j =>
      have hne : f k ≠ f (k + (j + 1)) := fun hh => by have := hf hh; omega
      have hrw : k + (j + 1) = (k + 1) + j := by omega
      simp only [List.enumFrom, List.map_cons, dictFind?]
      rw [if_neg hne, hrw, ih (k + 1) j (by simpa using h)]
      rfl

/-! ### Helper lemmas for pagination and the empty-parse characterization -/

theorem totalPagesCalc_is_ceil (t s : Nat) (hs : 0 < s) :
    1 ≤ totalPagesCalc t s ∧ t ≤ totalPagesCalc t s * s ∧
      (totalPagesCalc t s = 1 ∨ (totalPagesCalc t s - 1) * s < t) := by
  unfold totalPagesCalc
  rcases Nat.lt_or_ge t 1 with ht | ht
  · have ht0 : t = 0 := by omega
    subst ht0
    have hz : (0 + s - 1) / s = 0 := Nat.div_eq_of_lt (by omega)
    rw [hz]
    refine ⟨Nat.le_max_left 1 0, Nat.zero_le _, Or.inl ?_⟩
    simp
  · have hdm := Nat.div_add_mod' (t + s - 1) s
    have hr : (t + s - 1) % s < s := Nat.mod_lt _ hs
    have hc1 : 1 ≤ (t + s - 1) / s := (Nat.one_le_div_iff hs).mpr (by omega)
    rw [max_eq_right hc1]
    refine ⟨hc1, by omega, ?_⟩
    rcases Nat.lt_or_ge ((t + s - 1) / s) 2 with hc2 | hc2
    · left; omega
    · right
      have hEq : ((t + s - 1) / s - 1) * s + s = (t + s - 1) / s * s := by
        have h2 : ((t + s - 1) / s - 1) + 1 = (t + s - 1) / s := by omega
        calc ((t + s - 1) / s - 1) * s + s = (((t + s - 1) / s - 1) + 1) * s := by ring
          _ = (t + s - 1) / s * s := by rw [h2]
      omega

theorem clampPage_lt (page : Int) (tp : Nat) (h : 1 ≤ tp) : clampPage page tp < tp := by
  unfold clampPage
  omega

theorem foldl_parseChunkInto_eq_nil_iff (chunks : List (List Char)) :
    ∀ acc : List (String × Int),
      chunks.foldl parseChunkInto acc = [] ↔
        (acc = [] ∧ ∀ c ∈ chunks, pyStripL c = []) := by
  induction chunks with
  | nil => intro acc; simp
  | cons c r ih =>
    intro acc
    rw [List.foldl_cons, ih]
    by_cases hb : pyStripL c = []
    · have hid : parseChunkInto acc c = acc := by simp [parseChunkInto, hb]
      rw [hid]
      constructor
      · rintro ⟨h1, h2⟩
        refine ⟨h1, fun x hx => ?_⟩
        rcases List.mem_cons.mp hx with h | h
        · subst h; exact hb
        · exact h2 x h
      · rintro ⟨h1, h2⟩
        exact ⟨h1, fun x hx => h2 x (List.mem_cons_of_mem _ hx)⟩
    · have hne : parseChunkInto acc c ≠ [] := by
        simp only [parseChunkInto, if_neg hb]
        exact dictSet_ne_nil _ _ _
      constructor
      · intro hcontr; exact absurd hcontr.1 hne
      · intro hcontr; exact absurd (hcontr.2 c (by simp)) hb

/-! ### Claim theorems -/

/-- C1: In `check_availability`, the accumulated usage map counts exactly
the ledger records that pass the per-row filter (resolvable columns,
parseable date equal to the probe date, parseable times, overlapping
half-open window — `rowContribution?` returns `none` for every skipped
record): for every resource name, the accumulated usage equals the sum,
over the rows in order, of that row's parsed quantity for the name, with
skipped rows contributing zero. Hence no double counting, no contribution
from non-overlapping or malformed records, and skipping is non-fatal. -/
theorem check_availability_usage_sum (probe : PyDate) (s1 e1 : Nat) (rows : List SheetRow)
    (name : String) :
    dictGet (buildConflicts probe s1 e1 rows) name 0 =
      (rows.map (fun row =>
        match rowContribution? probe s1 e1 row with
        | none => 0
        | some res => dictGet res name 0)).sum := by
  unfold buildConflicts
  rw [dictGet_buildConflicts_aux]
  have h0 : dictGet ([] : List (String × Int)) name 0 = 0 := rfl
  rw [h0, zero_add]
  congr 1
  apply List.map_congr_left
  intro row _
  cases h : rowContribution? probe s1 e1 row with
  | none => rfl
  | some res =>
    exact sumKeyVals_eq_dictGet_of_nodup name res
      (rowContribution?_keysNodup probe s1 e1 row res h)

/-- C2: `check_availability` walks the requested entries in caller order
with first-failure-wins: it returns `ok` exactly when every entry resolves
to non-zero stock and has enough free quantity; and for any split of the
request list whose prefix passes, a failing head determines the result —
`notFound` when the name resolves to zero stock, otherwise `insufficient`
carrying the name, the window and the free and requested counts —
regardless of the remaining entries. -/
theorem check_availability_first_failure (inventory : List (String × Int))
    (rows : List SheetRow) (d : PyDate) (s e : Nat) (requested : List (String × Int)) :
    (check_availability inventory rows d s e requested = .ok ↔
       ∀ p ∈ requested, passesReq inventory (buildConflicts d s e rows) p) ∧
    (∀ (pre : List (String × Int)) (name : String) (cnt : Int)
        (post : List (String × Int)),
       requested = pre ++ (name, cnt) :: post →
       (∀ p ∈ pre, passesReq inventory (buildConflicts d s e rows) p) →
       ((resolveInv inventory name = 0 →
           check_availability inventory rows d s e requested = .notFound name) ∧
        (resolveInv inventory name ≠ 0 →
           resolveInv inventory name - dictGet (buildConflicts d s e rows) name 0 < cnt →
           check_availability inventory rows d s e requested =
             .insufficient name d s e
               (resolveInv inventory name - dictGet (buildConflicts d s e rows) name 0)
               cnt))) := by
  constructor
  · exact checkLoop_ok_iff inventory (buildConflicts d s e rows) d s e requested
  · intro pre name cnt post hreq hpre
    subst hreq
    unfold check_availability
    rw [checkLoop_first_fail inventory (buildConflicts d s e rows) d s e name cnt post
      pre hpre]
    constructor
    · intro h0; rw [if_pos h0]
    · intro h0 hlt; rw [if_neg h0, if_pos hlt]

/-- Witness for C2: with one unit of "Scope" in stock and an empty ledger,
the request list `[Scope×1, X×1]` passes its prefix and fails on the
unresolvable "X", so the check returns `notFound "X"`. -/
theorem check_availability_first_failure_witness :
    check_availability [("Scope", 1)] [] ⟨2026, 3, 10⟩ 540 600 [("Scope", 1), ("X", 1)] =
      .notFound "X" :=
  ((check_availability_first_failure [("Scope", 1)] [] ⟨2026, 3, 10⟩ 540 600
      [("Scope", 1), ("X", 1)]).2 [("Scope", 1)] "X" 1 [] rfl (by decide)).1 (by decide)

/-- C3: `times_overlap` returns true exactly when `s1 < e2 ∧ s2 < e1`
(half-open semantics); 09:00-10:00 does not overlap 10:00-11:00, while
09:00-10:30 overlaps 10:00-11:00 (times in minutes since midnight). -/
theorem times_overlap_halfOpen :
    (∀ s1 e1 s2 e2 : Nat, times_overlap s1 e1 s2 e2 = true ↔ (s1 < e2 ∧ s2 < e1)) ∧
    times_overlap 540 600 600 660 = false ∧
    times_overlap 540 630 600 660 = true := by
  refine ⟨fun s1 e1 s2 e2 => ?_, by decide, by decide⟩
  simp [times_overlap]

/-- Witness for C3 at a concrete overlapping pair. -/
theorem times_overlap_halfOpen_witness : times_overlap 100 200 150 250 = true :=
  (times_overlap_halfOpen.1 100 200 150 250).mpr (by decide)

/-- Concrete frozen candidate request used to exercise the confirm stage:
one "Scope" on 2026-03-10, 09:00-10:00. -/
def bdScope : BookingData :=
  ⟨⟨2026, 3, 10⟩, 540, 600, "Ivan", "Scope:1", [("Scope", 1)], "Petr"⟩

/-- C4: on the confirm signal (button or affirmative free text) the
workflow re-runs the availability check on the frozen candidate request
before any ledger write; the append happens exactly when this re-check
returns `ok`, a rejection leaves the ledger untouched and reports the
reason, affirmative free text behaves identically to the button, and a
conflicting row prepended by another session between entering the confirm
state and confirming makes the confirm yield a rejection, not a commit. -/
theorem confirm_recheck_gates_append (inventory : List (String × Int))
    (ledger : List SheetRow) (b : BookingData) :
    (confirm_handler inventory ledger b .cancel = (.cancelledByUser, ledger)) ∧
    (check_availability inventory ledger b.booking_date b.start_time b.end_time
        b.requested_parsed = .ok →
      confirm_handler inventory ledger b .yes = (.committed, serializeRow b :: ledger)) ∧
    (check_availability inventory ledger b.booking_date b.start_time b.end_time
        b.requested_parsed ≠ .ok →
      confirm_handler inventory ledger b .yes =
        (.rejected (check_availability inventory ledger b.booking_date b.start_time
          b.end_time b.requested_parsed), ledger)) ∧
    (∀ text : String,
      pyLower (pyStrip text) = "да" ∨ pyLower (pyStrip text) = "ok" ∨
        pyLower (pyStrip text) = "yes" →
      process_confirm_text inventory ledger b text = confirm_handler inventory ledger b .yes) ∧
    (∀ extra : SheetRow,
      check_availability inventory (extra :: ledger) b.booking_date b.start_time b.end_time
          b.requested_parsed ≠ .ok →
      confirm_handler inventory (extra :: ledger) b .yes =
        (.rejected (check_availability inventory (extra :: ledger) b.booking_date
          b.start_time b.end_time b.requested_parsed), extra :: ledger)) := by
  refine ⟨rfl, ?_, ?_, ?_, ?_⟩
  · intro h
    simp [confirm_handler, h]
  · intro h
    simp [confirm_handler, h]
  · intro text ht
    rcases ht with h | h | h <;>
      · unfold process_confirm_text confirm_handler
        rw [h]
        rw [if_neg (by decide), if_pos (by decide)]
  · intro extra h
    simp [confirm_handler, h]

/-- Witness for C4: the frozen request for one "Scope" passes the check on
the empty ledger; after another session prepends the same booking, the
confirm re-check fails and the confirm yields a rejection with the
conflicting row still the only ledger entry. -/
theorem confirm_recheck_gates_append_witness :
    check_availability [("Scope", 1)] [] bdScope.booking_date bdScope.start_time
        bdScope.end_time bdScope.requested_parsed = .ok ∧
    confirm_handler [("Scope", 1)] [serializeRow bdScope] bdScope .yes =
      (.rejected (.insufficient "Scope" ⟨2026, 3, 10⟩ 540 600 0 1),
       [serializeRow bdScope]) := by
  constructor
  · decide
  · have h := (confirm_recheck_gates_append [("Scope", 1)] [] bdScope).2.2.2.2
      (serializeRow bdScope) (by decide)
    rw [h]
    decide

/-- C5 counterexample: under the cart map issued for the two-entry cart
`[A×1, B×2]` the key `c0` stood for `A`; after `A` is removed and the map
regenerated, the same (now stale) key `c0` resolves against the current
map to `B`, and `cart_actions` decrements `B` instead of recognizing the
key as stale — a stale key resolved to a wrong (different) name. -/
theorem stale_cart_key_resolves_wrong_name :
    dictFind? (buildCartMap [("A", 1), ("B", 2)]) "c0" = some "A" ∧
    dictFind? (buildCartMap [("B", 2)]) "c0" = some "B" ∧
    cart_actions [] ⟨[], [("B", 2)], buildCartMap [("B", 2)], 0, none⟩ (.dec "c0") =
      (.decremented "B" 1,
       ⟨[], [("B", 1)], buildCartMap [("B", 1)], 0, none⟩) := by
  refine ⟨by decide, by decide, by decide⟩

/-- C5 (amended): a short key that is absent from the current key map
fails closed — `select_equipment` regenerates the catalog map at page 0
and re-prompts, and `cart_actions` answers the stale-button message
leaving the session state unchanged; no crash and no silent mutation.
A stale key still present in the regenerated map, however, is resolved
against the current map and can name a different entry. -/
theorem stale_key_miss_fails_closed (inv : List (String × Int)) (st : SessState)
    (key : String) :
    (dictFind? st.callback_map key = none →
       select_equipment inv st key =
         (.stale, { st with callback_map := (build_inventory_keyboard inv 0).callback_map,
                            inv_page := 0 })) ∧
    (dictFind? st.cart_map key = none →
       cart_actions inv st (.dec key) = (.staleButton, st) ∧
       cart_actions inv st (.remove key) = (.staleButton, st)) := by
  constructor
  · intro h
    simp only [select_equipment]
    rw [h]
    rfl
  · intro h
    constructor
    · simp only [cart_actions]
      rw [h]
    · simp only [cart_actions]
      rw [h]

/-- Witness for C5 (amended) at a session whose maps are empty. -/
theorem stale_key_miss_fails_closed_witness :
    cart_actions [] ⟨[], [], [], 0, none⟩ (.dec "c9") =
      (.staleButton, ⟨[], [], [], 0, none⟩) :=
  ((stale_key_miss_fails_closed [] ⟨[], [], [], 0, none⟩ "c9").2 (by decide)).1

/-- Catalog of 23 one-unit items `R0..R22` used for the concrete
pagination facts. -/
def sampleCatalog : List (String × Int) :=
  (List.range 23).map (fun i => (String.mk ('R' :: natDecimal i), 1))

/-- C6: `build_inventory_keyboard` computes
`total_pages = max(1, ceil(total / page_size))` (so 23 items at page size
10 give 3 pages), clamps the requested page into `[0, total_pages - 1]`,
and builds the `i{idx}` key map over the whole catalog independently of
the rendered page, so the key of any item — e.g. `i15` while rendering
page 0 — resolves to that item's name without re-rendering. -/
theorem build_inventory_keyboard_spec (inventory : List (String × Int)) (page : Int)
    (pageSize : Nat) (hs : 0 < pageSize) :
    ((build_inventory_keyboard inventory page pageSize).pages =
       totalPagesCalc inventory.length pageSize ∧
     1 ≤ totalPagesCalc inventory.length pageSize ∧
     inventory.length ≤ totalPagesCalc inventory.length pageSize * pageSize ∧
     (totalPagesCalc inventory.length pageSize = 1 ∨
       (totalPagesCalc inventory.length pageSize - 1) * pageSize < inventory.length)) ∧
    clampPage page (totalPagesCalc inventory.length pageSize) <
      totalPagesCalc inventory.length pageSize ∧
    ((build_inventory_keyboard inventory page pageSize).callback_map =
       (build_inventory_keyboard inventory 0 pageSize).callback_map ∧
     ∀ i : Nat, i < inventory.length →
       dictFind? (build_inventory_keyboard inventory page pageSize).callback_map (iKey i) =
         (inventory.get? i).map Prod.fst) ∧
    ((build_inventory_keyboard sampleCatalog 0).pages = 3 ∧
     dictFind? (build_inventory_keyboard sampleCatalog 0).callback_map "i15" =
       some (String.mk ('R' :: natDecimal 15))) := by
  have hceil := totalPagesCalc_is_ceil inventory.length pageSize hs
  refine ⟨⟨rfl, hceil.1, hceil.2.1, hceil.2.2⟩,
    clampPage_lt page _ hceil.1, ⟨rfl, ?_⟩, by decide, by decide⟩
  intro i hi
  have h := dictFind?_keyed_enumFrom iKey (fun hh => iKey_inj hh) inventory 0 i hi
  simpa using h

/-- Witness for C6 at the 23-item catalog and the fixed page size 10. -/
theorem build_inventory_keyboard_spec_witness :
    (build_inventory_keyboard sampleCatalog 0).pages = 3 :=
  (build_inventory_keyboard_spec sampleCatalog 0 10 (by decide)).2.2.2.1

/-- C7: `parse_resources` normalizes `;`, `,` and newline to one
delimiter and, per non-blank chunk, uses a `:`-delimited quantity when
present, else a final all-digit whitespace-separated token, else 1;
non-numeric quantity text defaults to 1; and a repeated (trimmed) name is
overwritten by its last occurrence rather than summed. Each behavior is
exercised: the three specified examples, the three separators in one
input, a non-numeric `:`-quantity, a non-numeric final token (the whole
chunk becomes the name), and duplicate overwrite including one that only
matches after trimming. -/
theorem parse_resources_forms :
    parse_resources "Oscilloscope:2; Laptop:1" = [("Oscilloscope", 2), ("Laptop", 1)] ∧
    parse_resources "Oscilloscope 2, Laptop" = [("Oscilloscope", 2), ("Laptop", 1)] ∧
    parse_resources "Widget" = [("Widget", 1)] ∧
    parse_resources "A:2\nB 3;C" = [("A", 2), ("B", 3), ("C", 1)] ∧
    parse_resources "Laptop:abc" = [("Laptop", 1)] ∧
    parse_resources "Laptop qty" = [("Laptop qty", 1)] ∧
    parse_resources "Oscilloscope:2; Oscilloscope:3" = [("Oscilloscope", 3)] ∧
    parse_resources " Laptop :5;  Laptop : 7 " = [("Laptop", 7)] := by
  refine ⟨by decide, by decide, by decide, by decide, by decide, by decide, by decide,
    by decide⟩

/-- C8 counterexample: the input `";"` is non-empty yet `parse_resources`
returns the empty mapping, refuting "non-empty mapping for every
non-empty input". -/
theorem parse_resources_nonempty_input_empty_output :
    (";" : String) ≠ "" ∧ parse_resources ";" = [] := by
  refine ⟨by decide, by decide⟩

/-- C8 (amended): `parse_resources` returns the empty mapping exactly
when every chunk of the separator-normalized input is blank (whitespace
only); in particular the empty input maps to the empty mapping, but so do
non-empty separator-only or whitespace-only inputs, and any input with a
non-blank chunk yields a non-empty mapping. -/
theorem parse_resources_empty_iff (text : String) :
    parse_resources text = [] ↔
      ∀ chunk ∈ splitChar ';' (normalizeSeps text), pyStripL chunk = [] := by
  unfold parse_resources
  rw [foldl_parseChunkInto_eq_nil_iff]
  simp

/-- Witness for C8 (amended) on a whitespace-and-separator input. -/
theorem parse_resources_empty_iff_witness : parse_resources "  ,  ; \n" = [] :=
  (parse_resources_empty_iff "  ,  ; \n").mpr (by decide)

/-- Overlapping ledger row whose resource name differs from the inventory
name "Laptop" only in letter case. -/
def caseMismatchRow : SheetRow :=
  [("Дата проведения работ", "2026-03-10"),
   ("Необходимые ресурсы", "laptop:2"),
   ("Время начала работ", "09:00"),
   ("Время окончания работ", "10:00")]

/-- C9 (implicit): requested names are resolved against inventory
case-insensitively and trimmed (`resolveInv` is invariant under any
renaming of the queried name with the same normalized form), but the
deduction of already-used quantities looks the requested name up in the
usage map by exact string equality — if no overlapping record binds the
exact name, its accumulated usage is 0 even when records bind
case-variants. Concretely, a ledger row booking `laptop:2` in the probed
window leaves `check_availability` accepting `Laptop×2` against an
inventory of 2. -/
theorem used_lookup_exact_name (inventory : List (String × Int)) (rows : List SheetRow)
    (d : PyDate) (s e : Nat) (name : String) :
    ((∀ n2 : String, pyLower (pyStrip n2) = pyLower (pyStrip name) →
        resolveInv inventory n2 = resolveInv inventory name) ∧
     ((∀ row ∈ rows, ∀ res : List (String × Int),
         rowContribution? d s e row = some res → dictFind? res name = none) →
       dictGet (buildConflicts d s e rows) name 0 = 0)) ∧
    (rowContribution? ⟨2026, 3, 10⟩ 540 600 caseMismatchRow = some [("laptop", 2)] ∧
     check_availability [("Laptop", 2)] [caseMismatchRow] ⟨2026, 3, 10⟩ 540 600
       [("Laptop", 2)] = .ok) := by
  refine ⟨⟨?_, ?_⟩, by decide, by decide⟩
  · intro n2 h
    unfold resolveInv
    have hfun : (fun p : String × Int => pyLower (pyStrip p.1) == pyLower (pyStrip n2)) =
        (fun p : String × Int => pyLower (pyStrip p.1) == pyLower (pyStrip name)) := by
      funext p
      rw [h]
    rw [hfun]
  · intro hall
    unfold buildConflicts
    rw [dictGet_buildConflicts_aux]
    have hz : (rows.map (fun row =>
        match rowContribution? d s e row with
        | none => 0
        | some res => sumKeyVals name res)).sum = 0 := by
      apply List.sum_eq_zero
      intro x hx
      rcases List.mem_map.mp hx with ⟨row, hrow, hfx⟩
      rw [← hfx]
      cases h2 : rowContribution? d s e row with
      | none => rfl
      | some res => exact sumKeyVals_eq_zero_of_find?_none name res (hall row hrow res h2)
    rw [hz]
    rfl

/-- Witness for C9: with the case-variant row as the whole ledger, the
accumulated usage of the exact name "Laptop" is 0. -/
theorem used_lookup_exact_name_witness :
    dictGet (buildConflicts ⟨2026, 3, 10⟩ 540 600 [caseMismatchRow]) "Laptop" 0 = 0 :=
  (used_lookup_exact_name [("Laptop", 2)] [caseMismatchRow] ⟨2026, 3, 10⟩ 540 600
      "Laptop").1.2
    (by
      intro row hrow res h2
      have hr : row = caseMismatchRow := by simpa using hrow
      subst hr
      have hc : rowContribution? ⟨2026, 3, 10⟩ 540 600 caseMismatchRow =
          some [("laptop", 2)] := by decide
      rw [hc, Option.some.injEq] at h2
      rw [← h2]
      decide)

/-- C10 (implicit): `parse_resources` applies no positivity constraint to
explicit `:`-quantities — 0, negative and explicitly signed integers are
bound exactly as written, so the manual-input path can produce requested
mappings below the `quantity ≥ 1` convention cart entries obey. -/
theorem parse_resources_integer_quantities :
    parse_resources "Laptop:0" = [("Laptop", 0)] ∧
    parse_resources "Laptop:-3" = [("Laptop", -3)] ∧
    parse_resources "Laptop:+7" = [("Laptop", 7)] ∧
    parse_resources "Scope:-12; Laptop:0" = [("Scope", -12), ("Laptop", 0)] := by
  refine ⟨by decide, by decide, by decide, by decide⟩
